import Mathlib

/-!
Shallow embedding of the AMQP-CPP `Throttle` channel wrapper
(src/include/amqpcpp/throttle.h) and of the `VoidField` codec
(src/include/amqpcpp/voidfield.h).

The repository ships only the header for `Throttle`; the bodies of
`publish`, `onAck`, `flush` and `close` live in a .cpp file that is not
part of the sources.  The header gives the state (`_current`, `_last`,
`_throttle`, `_queue`, `_open`, `_close`) and the inline bodies of
`waiting`, `unacknowledged`, the `throttle` accessors and `onNack`
(which forwards to `onAck`).  The missing bodies are modelled from the
specification, as indicated on each definition.

Machine integers (`uint64_t`, `size_t`) are modelled as `Nat`; the state
invariant proved below shows the one subtraction in the code
(`_current - _last - 1`) never underflows in reachable states, so the
idealised arithmetic agrees with the C++ modular arithmetic there.
Message payloads (`CopiedBuffer`, exchange, routing key) take no part in
any bookkeeping decision, so a pending message is represented by its
assigned sequence id alone.
-/

/--
State of a `Throttle` object.  Fields mirror the C++ members:
`current` is `_current` (next id, starts at 1), `last` is `_last`
(last confirmed tag, starts at 0), `throttle` is `_throttle`,
`queue` is `_queue` (FIFO of pending ids, head = front), `openTags` is
`_open` (the set of dispatched-but-unconfirmed delivery tags), and
`closing` records whether the `_close` deferred has been installed.
`closedCount`, `resolvedCount`, `assigned` and `sent` are ghost
observers: how often the underlying channel was closed, how often the
close deferred was resolved, the log of ids handed out by `publish`,
and the log of ids dispatched to the channel, in dispatch order.
-/
structure Throttle where
  current : Nat := 1
  last : Nat := 0
  throttle : Nat
  queue : List Nat := []
  openTags : Finset Nat := ∅
  closing : Bool := false
  closedCount : Nat := 0
  resolvedCount : Nat := 0
  assigned : List Nat := []
  sent : List Nat := []
deriving DecidableEq

/-- Initial state right after the constructor `Throttle(channel, throttle)`. -/
def Throttle.init (throttle : Nat) : Throttle :=
  { throttle := throttle }

/-- Inline body from the header: `waiting() { return _current - _last - 1; }`. -/
def Throttle.waiting (s : Throttle) : Nat :=
  s.current - s.last - 1

/-- Inline body from the header: `unacknowledged() { return _open.size(); }`. -/
def Throttle.unacknowledged (s : Throttle) : Nat :=
  s.openTags.card

/-- Inline body from the header: `void throttle(size_t throttle) { _throttle = throttle; }`. -/
def Throttle.setThrottle (n : Nat) (s : Throttle) : Throttle :=
  { s with throttle := n }

/--
Modelled from the spec: the body of `Throttle::publish` is not in the
sources (only its declaration, throttle.h line 153).  Spec §4.1: fail
(return `false`, no further work) if a close has been requested;
otherwise assign `id = nextId++`; if `OpenTagSet.size() < throttle`
dispatch immediately and insert the id into the open tag set, else
append the id to the pending queue; return `true` in both cases.
-/
def Throttle.publish (s : Throttle) : Bool × Throttle :=
  if s.closing then (false, s)
  else
    let id := s.current
    let s1 := { s with current := s.current + 1, assigned := s.assigned ++ [id] }
    if s1.openTags.card < s1.throttle then
      (true, { s1 with openTags := insert id s1.openTags, sent := s1.sent ++ [id] })
    else
      (true, { s1 with queue := s1.queue ++ [id] })

/--
Modelled from the spec: the acknowledgment-update step of
`Throttle::onAck` (declared at throttle.h line 108, body not in the
sources).  Spec §4.2: if `multiple`, remove every entry `t ≤ tag` from
the open tag set and set `lastConfirmed = max(lastConfirmed, tag)`;
else remove only `tag`, and update `lastConfirmed` to `tag` only if
`tag == lastConfirmed + 1`.
-/
def Throttle.ackUpdate (tag : Nat) (multiple : Bool) (s : Throttle) : Throttle :=
  if multiple then
    { s with openTags := s.openTags.filter (fun t => tag < t),
             last := max s.last tag }
  else
    { s with openTags := s.openTags.erase tag,
             last := if tag = s.last + 1 then tag else s.last }

/--
Modelled from the spec: the drain loop of `onAck` (§4.2): while the
open tag set is below the throttle and the pending queue is nonempty,
pop the head of the queue, dispatch it, and insert its id into the open
tag set.  Arguments are the throttle ceiling, the queue, the open tag
set and the dispatch log; it returns their updated values.
-/
def drainLoop (thr : Nat) : List Nat → Finset Nat → List Nat → List Nat × Finset Nat × List Nat
  | [], opens, sentLog => ([], opens, sentLog)
  | q :: rest, opens, sentLog =>
    if opens.card < thr then drainLoop thr rest (insert q opens) (sentLog ++ [q])
    else (q :: rest, opens, sentLog)

/-- Modelled from the spec: the drain loop of `onAck`, lifted to the state. -/
def Throttle.drainState (s : Throttle) : Throttle :=
  let r := drainLoop s.throttle s.queue s.openTags s.sent
  { s with queue := r.1, openTags := r.2.1, sent := r.2.2 }

/--
Modelled from the spec: the end-of-drain close check (§4.2, §4.4): if a
close has been requested and both the pending queue and the open tag
set are empty, close the underlying channel and resolve the deferred.
-/
def Throttle.checkClose (s : Throttle) : Throttle :=
  if s.closing = true ∧ s.queue = [] ∧ s.openTags = ∅ then
    { s with closedCount := s.closedCount + 1, resolvedCount := s.resolvedCount + 1 }
  else s

/--
Modelled from the spec: the full `Throttle::onAck` (§4.2): update the
open tag set and the confirmed frontier, drain the pending queue into
the freed capacity, then perform the close check.
-/
def Throttle.onAck (tag : Nat) (multiple : Bool) (s : Throttle) : Throttle :=
  Throttle.checkClose (Throttle.drainState (Throttle.ackUpdate tag multiple s))

/-- Inline body from the header (line 109): `onNack` forwards to `onAck` unchanged. -/
def Throttle.onNack (tag : Nat) (multiple : Bool) (s : Throttle) : Throttle :=
  Throttle.onAck tag multiple s

/--
Modelled from the spec: the loop of `Throttle::flush` (§4.3): dispatch
queued messages without checking the throttle, up to `max` of them
(`max = 0` means no limit), counting how many were dispatched.
Arguments: the limit, the queue, the count so far, the open tag set and
the dispatch log.
-/
def flushAux (max : Nat) : List Nat → Nat → Finset Nat → List Nat → Nat × List Nat × Finset Nat × List Nat
  | [], count, opens, sentLog => (count, [], opens, sentLog)
  | q :: rest, count, opens, sentLog =>
    if max = 0 ∨ count < max then flushAux max rest (count + 1) (insert q opens) (sentLog ++ [q])
    else (count, q :: rest, opens, sentLog)

/--
Modelled from the spec: `Throttle::flush(max)` (declared at throttle.h
line 188, body not in the sources).  Drains up to `max` queued messages
(all of them if `max = 0`) to the channel ignoring the throttle, and
returns the number actually dispatched.
-/
def Throttle.flush (max : Nat) (s : Throttle) : Nat × Throttle :=
  let r := flushAux max s.queue 0 s.openTags s.sent
  (r.1, { s with queue := r.2.1, openTags := r.2.2.1, sent := r.2.2.2 })

/--
Modelled from the spec: `Throttle::close` (declared at throttle.h line
194, body not in the sources).  Spec §4.4: record the close request;
if the pending queue and the open tag set are already empty, close the
channel and resolve the deferred immediately.
-/
def Throttle.close (s : Throttle) : Throttle :=
  Throttle.checkClose { s with closing := true }

/--
One externally triggered transition of the throttle.  `ack` and `nack`
carry the channel contract (§6) that acknowledgments refer to a
delivery tag that is actually outstanding; `closeEv` carries the spec's
"CloseRequest is set at most once" (§3).  `publish`, `flush` and
`setThrottle` may be invoked at any time.
-/
inductive Step : Throttle → Throttle → Prop where
  | pub (s : Throttle) : Step s (s.publish).2
  | ack (s : Throttle) (t : Nat) (m : Bool) (h : t ∈ s.openTags) : Step s (Throttle.onAck t m s)
  | nack (s : Throttle) (t : Nat) (m : Bool) (h : t ∈ s.openTags) : Step s (Throttle.onNack t m s)
  | flushEv (s : Throttle) (max : Nat) : Step s (Throttle.flush max s).2
  | closeEv (s : Throttle) (h : s.closing = false) : Step s (Throttle.close s)
  | setThrottleEv (s : Throttle) (n : Nat) : Step s (Throttle.setThrottle n s)

/-- Reachable states: everything obtainable from a fresh throttle by valid steps. -/
inductive Reach : Throttle → Prop where
  | init (n : Nat) : Reach (Throttle.init n)
  | step {s s' : Throttle} : Reach s → Step s s' → Reach s'

/-- Number of elements of `[1, …, n]` strictly above `l`. -/
lemma length_filter_range'_gt (l n : Nat) :
    ((List.range' 1 n).filter (fun i => decide (l < i))).length = n - l := by
  induction n with
  | zero => simp
  | succ n ih =>
    rw [List.range'_1_concat, List.filter_append, List.length_append, ih]
    by_cases h : l < 1 + n
    · have h1 : (List.filter (fun i => decide (l < i)) [1 + n]).length = 1 := by simp [h]
      rw [h1]; omega
    · have h1 : (List.filter (fun i => decide (l < i)) [1 + n]).length = 0 := by simp [h]
      rw [h1]; omega

/-- Number of elements of `[1, …, n]` at most `l`. -/
lemma length_filter_range'_le (l n : Nat) :
    ((List.range' 1 n).filter (fun i => decide (i ≤ l))).length = min l n := by
  induction n with
  | zero => simp
  | succ n ih =>
    rw [List.range'_1_concat, List.filter_append, List.length_append, ih]
    by_cases h : 1 + n ≤ l
    · have h1 : (List.filter (fun i => decide (i ≤ l)) [1 + n]).length = 1 := by simp [h]
      rw [h1]; omega
    · have h1 : (List.filter (fun i => decide (i ≤ l)) [1 + n]).length = 0 := by simp [h]
      rw [h1]; omega

/-- Inserting on the left of a union is the same as inserting on the right. -/
lemma insert_union_comm_nat (q : Nat) (a b : Finset Nat) : insert q a ∪ b = a ∪ insert q b := by
  rw [Finset.insert_union, Finset.union_insert]

/--
Closed form of the `onAck` drain loop: some prefix of the queue (of
length `k`) is dispatched, its ids joining the open tag set and the
dispatch log, and the rest of the queue stays.
-/
lemma drainLoop_spec (thr : Nat) (queue : List Nat) (opens : Finset Nat) (sentLog : List Nat) :
    ∃ k, drainLoop thr queue opens sentLog =
      (queue.drop k, opens ∪ (queue.take k).toFinset, sentLog ++ queue.take k) := by
  induction queue generalizing opens sentLog with
  | nil => exact ⟨0, by simp [drainLoop]⟩
  | cons q rest ih =>
    by_cases h : opens.card < thr
    · obtain ⟨k, hk⟩ := ih (insert q opens) (sentLog ++ [q])
      refine ⟨k + 1, ?_⟩
      rw [drainLoop, if_pos h, hk]
      simp [List.drop_succ_cons, List.take_succ_cons, List.toFinset_cons, insert_union_comm_nat]
    · exact ⟨0, by rw [drainLoop, if_neg h]; simp⟩

/-- The drain loop never pushes the open tag set above the throttle. -/
lemma drainLoop_card_le (thr : Nat) (queue : List Nat) (opens : Finset Nat) (sentLog : List Nat)
    (h : opens.card ≤ thr) : (drainLoop thr queue opens sentLog).2.1.card ≤ thr := by
  induction queue generalizing opens sentLog with
  | nil => simpa [drainLoop] using h
  | cons q rest ih =>
    by_cases hc : opens.card < thr
    · rw [drainLoop, if_pos hc]
      exact ih (insert q opens) (sentLog ++ [q]) (le_trans (Finset.card_insert_le q opens) hc)
    · rw [drainLoop, if_neg hc]
      simpa using h

/-- Number of messages the flush loop dispatches from a queue of length `len`. -/
def flushCount (max count len : Nat) : Nat :=
  if max = 0 then len else min (max - count) len

/--
Closed form of the flush loop: it dispatches the first `flushCount`
elements of the queue, ignoring the open tag set's size entirely.
-/
lemma flushAux_spec (max : Nat) (queue : List Nat) (count : Nat) (opens : Finset Nat) (sentLog : List Nat) :
    flushAux max queue count opens sentLog =
      (count + flushCount max count queue.length,
       queue.drop (flushCount max count queue.length),
       opens ∪ (queue.take (flushCount max count queue.length)).toFinset,
       sentLog ++ queue.take (flushCount max count queue.length)) := by
  induction queue generalizing count opens sentLog with
  | nil => simp [flushAux, flushCount]
  | cons q rest ih =>
    by_cases h : max = 0 ∨ count < max
    · have hstep : flushCount max count (q :: rest).length = flushCount max (count + 1) rest.length + 1 := by
        rcases h with h0 | hlt
        · simp [flushCount, h0]
        · have h0 : max ≠ 0 := by omega
          simp only [flushCount, List.length_cons, if_neg h0]
          omega
      rw [flushAux, if_pos h, ih (count + 1) (insert q opens) (sentLog ++ [q]), hstep]
      have hcount : count + 1 + flushCount max (count + 1) rest.length
          = count + (flushCount max (count + 1) rest.length + 1) := by omega
      simp [List.drop_succ_cons, List.take_succ_cons, List.toFinset_cons,
        insert_union_comm_nat, hcount]
    · have hz : flushCount max count (q :: rest).length = 0 := by
        simp only [flushCount]
        rcases Nat.eq_zero_or_pos max with h0 | h0
        · exact absurd (Or.inl h0) h
        · have : ¬ count < max := fun hc => h (Or.inr hc)
          simp [Nat.pos_iff_ne_zero.mp h0]
          omega
      rw [flushAux, if_neg h, hz]
      simp

/-- The close check never touches the queue, sets, counters or logs, only the two ghost counts. -/
lemma checkClose_fields (s : Throttle) :
    (Throttle.checkClose s).current = s.current ∧
    (Throttle.checkClose s).last = s.last ∧
    (Throttle.checkClose s).throttle = s.throttle ∧
    (Throttle.checkClose s).queue = s.queue ∧
    (Throttle.checkClose s).openTags = s.openTags ∧
    (Throttle.checkClose s).closing = s.closing ∧
    (Throttle.checkClose s).assigned = s.assigned ∧
    (Throttle.checkClose s).sent = s.sent := by
  unfold Throttle.checkClose
  split <;> simp

/-- The ack-update step only touches the open tag set and the confirmed frontier. -/
lemma ackUpdate_fields (tag : Nat) (m : Bool) (s : Throttle) :
    (Throttle.ackUpdate tag m s).current = s.current ∧
    (Throttle.ackUpdate tag m s).throttle = s.throttle ∧
    (Throttle.ackUpdate tag m s).queue = s.queue ∧
    (Throttle.ackUpdate tag m s).closing = s.closing ∧
    (Throttle.ackUpdate tag m s).closedCount = s.closedCount ∧
    (Throttle.ackUpdate tag m s).resolvedCount = s.resolvedCount ∧
    (Throttle.ackUpdate tag m s).assigned = s.assigned ∧
    (Throttle.ackUpdate tag m s).sent = s.sent := by
  unfold Throttle.ackUpdate
  split <;> simp

/-- The drain step only touches the queue, the open tag set and the dispatch log. -/
lemma drainState_fields (s : Throttle) :
    (Throttle.drainState s).current = s.current ∧
    (Throttle.drainState s).last = s.last ∧
    (Throttle.drainState s).throttle = s.throttle ∧
    (Throttle.drainState s).closing = s.closing ∧
    (Throttle.drainState s).closedCount = s.closedCount ∧
    (Throttle.drainState s).resolvedCount = s.resolvedCount ∧
    (Throttle.drainState s).assigned = s.assigned := by
  unfold Throttle.drainState
  simp

/-- Publishing while a close is requested fails and does nothing (spec §4.1). -/
lemma publish_closing {s : Throttle} (hc : s.closing = true) : s.publish = (false, s) := by
  unfold Throttle.publish
  rw [if_pos hc]

/-- Publishing under capacity dispatches immediately (spec §4.1). -/
lemma publish_dispatch {s : Throttle} (hc : s.closing = false)
    (hcap : s.openTags.card < s.throttle) :
    s.publish = (true, { s with
      current := s.current + 1,
      assigned := s.assigned ++ [s.current],
      openTags := insert s.current s.openTags,
      sent := s.sent ++ [s.current] }) := by
  unfold Throttle.publish
  rw [if_neg (by simp [hc]), if_pos hcap]

/-- Publishing at or above capacity appends to the pending queue (spec §4.1). -/
lemma publish_enqueue {s : Throttle} (hc : s.closing = false)
    (hcap : ¬ s.openTags.card < s.throttle) :
    s.publish = (true, { s with
      current := s.current + 1,
      assigned := s.assigned ++ [s.current],
      queue := s.queue ++ [s.current] }) := by
  unfold Throttle.publish
  rw [if_neg (by simp [hc]), if_neg hcap]

/--
State invariant of the throttle, preserved by every valid step:
the id counter is at least 1 and strictly above the confirmed frontier,
the assignment log is exactly `[1, …, current-1]`, every open tag and
every queued id was assigned, the channel is closed at most once with
the deferred resolved as often, and the channel is closed exactly when
a requested close has found (or left) both the queue and the tag set
empty.
-/
def ThrottleInv (s : Throttle) : Prop :=
  1 ≤ s.current ∧
  s.last + 1 ≤ s.current ∧
  s.assigned = List.range' 1 (s.current - 1) ∧
  (∀ t ∈ s.openTags, t < s.current) ∧
  (∀ q ∈ s.queue, q < s.current) ∧
  s.closedCount ≤ 1 ∧
  s.resolvedCount = s.closedCount ∧
  (s.closedCount = 1 → s.closing = true ∧ s.queue = [] ∧ s.openTags = ∅) ∧
  ((s.closing = true ∧ s.queue = [] ∧ s.openTags = ∅) → s.closedCount = 1)

/-- The invariant holds initially. -/
lemma inv_init (n : Nat) : ThrottleInv (Throttle.init n) := by
  refine ⟨le_refl 1, le_refl 1, by simp [Throttle.init], ?_, ?_, ?_, rfl, ?_, ?_⟩ <;>
    simp [Throttle.init]

/-- The invariant is preserved by `publish`. -/
lemma inv_publish {s : Throttle} (h : ThrottleInv s) : ThrottleInv (s.publish).2 := by
  obtain ⟨h1, h2, h3, h4, h5, h6, h7, h8, h9⟩ := h
  by_cases hc : s.closing = true
  · rw [publish_closing hc]
    exact ⟨h1, h2, h3, h4, h5, h6, h7, h8, h9⟩
  · have hc' : s.closing = false := by
      cases hcl : s.closing
      · rfl
      · exact absurd hcl hc
    have hassign : s.assigned ++ [s.current] = List.range' 1 (s.current + 1 - 1) := by
      rw [h3]
      have : s.current + 1 - 1 = (s.current - 1) + 1 := by omega
      rw [this, List.range'_1_concat]
      have : 1 + (s.current - 1) = s.current := by omega
      rw [this]
    by_cases hcap : s.openTags.card < s.throttle
    · rw [publish_dispatch hc' hcap]
      refine ⟨show 1 ≤ s.current + 1 by omega, show s.last + 1 ≤ s.current + 1 by omega,
        hassign, ?_, ?_, h6, h7, ?_, ?_⟩
      · intro t ht
        show t < s.current + 1
        rcases Finset.mem_insert.mp ht with rfl | ht
        · omega
        · exact Nat.lt_succ_of_lt (h4 t ht)
      · exact fun q hq => Nat.lt_succ_of_lt (h5 q hq)
      · intro hcc
        exact absurd (h8 hcc).1 (by simp [hc'])
      · intro ⟨hcl, _, _⟩
        exact absurd hcl (by simp [hc'])
    · rw [publish_enqueue hc' hcap]
      refine ⟨show 1 ≤ s.current + 1 by omega, show s.last + 1 ≤ s.current + 1 by omega,
        hassign, ?_, ?_, h6, h7, ?_, ?_⟩
      · exact fun t ht => Nat.lt_succ_of_lt (h4 t ht)
      · intro q hq
        show q < s.current + 1
        rcases List.mem_append.mp hq with hq | hq
        · exact Nat.lt_succ_of_lt (h5 q hq)
        · rw [List.mem_singleton.mp hq]
          omega
      · intro hcc
        exact absurd (h8 hcc).1 (by simp [hc'])
      · intro ⟨hcl, _, _⟩
        exact absurd hcl (by simp [hc'])

/-- The invariant is preserved by a throttle change. -/
lemma inv_setThrottle {s : Throttle} (n : Nat) (h : ThrottleInv s) : ThrottleInv (Throttle.setThrottle n s) := by
  obtain ⟨h1, h2, h3, h4, h5, h6, h7, h8, h9⟩ := h
  exact ⟨h1, h2, h3, h4, h5, h6, h7, h8, h9⟩

/-- The confirmed frontier stays below the id counter across an ack update. -/
lemma ackUpdate_last_le {s : Throttle} {tag : Nat} (m : Bool) (hmem : tag ∈ s.openTags)
    (h2 : s.last + 1 ≤ s.current) (h4 : ∀ t ∈ s.openTags, t < s.current) :
    (Throttle.ackUpdate tag m s).last + 1 ≤ s.current := by
  have htag := h4 tag hmem
  cases m
  · show (if tag = s.last + 1 then tag else s.last) + 1 ≤ s.current
    split <;> omega
  · show (max s.last tag) + 1 ≤ s.current
    omega

/-- The ack update only removes tags from the open tag set. -/
lemma ackUpdate_openTags_subset (tag : Nat) (m : Bool) (s : Throttle) :
    (Throttle.ackUpdate tag m s).openTags ⊆ s.openTags := by
  cases m
  · show s.openTags.erase tag ⊆ s.openTags
    exact Finset.erase_subset tag s.openTags
  · show s.openTags.filter (fun t => tag < t) ⊆ s.openTags
    exact Finset.filter_subset _ _

/-- The invariant is preserved by `close` (which may only be requested once). -/
lemma inv_close {s : Throttle} (h : ThrottleInv s) (hc : s.closing = false) :
    ThrottleInv (Throttle.close s) := by
  obtain ⟨h1, h2, h3, h4, h5, h6, h7, h8, h9⟩ := h
  have hcount : s.closedCount = 0 := by
    by_cases hcc : s.closedCount = 1
    · exact absurd (h8 hcc).1 (by simp [hc])
    · omega
  unfold Throttle.close Throttle.checkClose
  split
  · rename_i hcond
    refine ⟨h1, h2, h3, h4, h5, ?_, ?_, ?_, ?_⟩
    · show s.closedCount + 1 ≤ 1
      omega
    · show s.resolvedCount + 1 = s.closedCount + 1
      omega
    · intro _
      exact ⟨rfl, hcond.2.1, hcond.2.2⟩
    · intro _
      show s.closedCount + 1 = 1
      omega
  · rename_i hcond
    refine ⟨h1, h2, h3, h4, h5, h6, h7, ?_, ?_⟩
    · intro hcc
      exact absurd hcc (by simp [hcount])
    · intro hc3
      exact absurd ⟨rfl, hc3.2.1, hc3.2.2⟩ hcond

/-- The invariant is preserved by `flush`. -/
lemma inv_flush {s : Throttle} (max : Nat) (h : ThrottleInv s) :
    ThrottleInv (Throttle.flush max s).2 := by
  obtain ⟨h1, h2, h3, h4, h5, h6, h7, h8, h9⟩ := h
  unfold Throttle.flush
  rw [flushAux_spec]
  refine ⟨h1, h2, h3, ?_, ?_, h6, h7, ?_, ?_⟩
  · intro t ht
    show t < s.current
    rcases Finset.mem_union.mp ht with ht | ht
    · exact h4 t ht
    · exact h5 t (List.mem_of_mem_take (List.mem_toFinset.mp ht))
  · intro q hq
    show q < s.current
    exact h5 q (List.mem_of_mem_drop hq)
  · intro hcc
    obtain ⟨hcl, hqe, hoe⟩ := h8 hcc
    refine ⟨hcl, ?_, ?_⟩
    · show s.queue.drop (flushCount max 0 s.queue.length) = []
      rw [hqe]
      simp
    · show s.openTags ∪ (s.queue.take (flushCount max 0 s.queue.length)).toFinset = ∅
      rw [hqe, hoe]
      simp
  · intro hc3
    obtain ⟨hcl, hqe, hoe⟩ := hc3
    have hqe' : s.queue.drop (flushCount max 0 s.queue.length) = [] := hqe
    have hoe' : s.openTags ∪ (s.queue.take (flushCount max 0 s.queue.length)).toFinset = ∅ := hoe
    obtain ⟨ho1, ho2⟩ := Finset.union_eq_empty.mp hoe'
    have htake : s.queue.take (flushCount max 0 s.queue.length) = [] :=
      (List.toFinset_eq_empty_iff _).mp ho2
    have hqueue : s.queue = [] := by
      rw [← List.take_append_drop (flushCount max 0 s.queue.length) s.queue, htake, hqe']
      rfl
    exact h9 ⟨hcl, hqueue, ho1⟩

/-- The invariant is preserved by `onAck` on an outstanding tag. -/
lemma inv_ack {s : Throttle} (tag : Nat) (m : Bool) (hmem : tag ∈ s.openTags)
    (h : ThrottleInv s) : ThrottleInv (Throttle.onAck tag m s) := by
  obtain ⟨h1, h2, h3, h4, h5, h6, h7, h8, h9⟩ := h
  have hcount : s.closedCount = 0 := by
    by_cases hcc : s.closedCount = 1
    · rw [(h8 hcc).2.2] at hmem
      exact absurd hmem (Finset.not_mem_empty tag)
    · omega
  obtain ⟨f1, f2, f3, f4, f5, f6, f7, f8⟩ := ackUpdate_fields tag m s
  have hlast : (Throttle.ackUpdate tag m s).last + 1 ≤ s.current :=
    ackUpdate_last_le m hmem h2 h4
  have hsub := ackUpdate_openTags_subset tag m s
  obtain ⟨k, hdrain⟩ := drainLoop_spec (Throttle.ackUpdate tag m s).throttle
    (Throttle.ackUpdate tag m s).queue (Throttle.ackUpdate tag m s).openTags
    (Throttle.ackUpdate tag m s).sent
  unfold Throttle.onAck Throttle.drainState
  rw [hdrain]
  unfold Throttle.checkClose
  split
  · rename_i hcond
    refine ⟨?_, ?_, ?_, ?_, ?_, ?_, ?_, ?_, ?_⟩
    · show 1 ≤ (Throttle.ackUpdate tag m s).current
      rw [f1]; exact h1
    · show (Throttle.ackUpdate tag m s).last + 1 ≤ (Throttle.ackUpdate tag m s).current
      rw [f1]; exact hlast
    · show (Throttle.ackUpdate tag m s).assigned
        = List.range' 1 ((Throttle.ackUpdate tag m s).current - 1)
      rw [f7, f1]; exact h3
    · intro t ht
      show t < (Throttle.ackUpdate tag m s).current
      rw [f1]
      rcases Finset.mem_union.mp ht with ht | ht
      · exact h4 t (hsub ht)
      · have hmt := List.mem_of_mem_take (List.mem_toFinset.mp ht)
        rw [f3] at hmt
        exact h5 t hmt
    · intro q hq
      show q < (Throttle.ackUpdate tag m s).current
      rw [f1]
      have hmq := List.mem_of_mem_drop hq
      rw [f3] at hmq
      exact h5 q hmq
    · show (Throttle.ackUpdate tag m s).closedCount + 1 ≤ 1
      rw [f5, hcount]
    · show (Throttle.ackUpdate tag m s).resolvedCount + 1
        = (Throttle.ackUpdate tag m s).closedCount + 1
      rw [f6, f5, h7]
    · intro _
      exact ⟨hcond.1, hcond.2.1, hcond.2.2⟩
    · intro _
      show (Throttle.ackUpdate tag m s).closedCount + 1 = 1
      rw [f5, hcount]
  · rename_i hcond
    refine ⟨?_, ?_, ?_, ?_, ?_, ?_, ?_, ?_, ?_⟩
    · show 1 ≤ (Throttle.ackUpdate tag m s).current
      rw [f1]; exact h1
    · show (Throttle.ackUpdate tag m s).last + 1 ≤ (Throttle.ackUpdate tag m s).current
      rw [f1]; exact hlast
    · show (Throttle.ackUpdate tag m s).assigned
        = List.range' 1 ((Throttle.ackUpdate tag m s).current - 1)
      rw [f7, f1]; exact h3
    · intro t ht
      show t < (Throttle.ackUpdate tag m s).current
      rw [f1]
      rcases Finset.mem_union.mp ht with ht | ht
      · exact h4 t (hsub ht)
      · have hmt := List.mem_of_mem_take (List.mem_toFinset.mp ht)
        rw [f3] at hmt
        exact h5 t hmt
    · intro q hq
      show q < (Throttle.ackUpdate tag m s).current
      rw [f1]
      have hmq := List.mem_of_mem_drop hq
      rw [f3] at hmq
      exact h5 q hmq
    · show (Throttle.ackUpdate tag m s).closedCount ≤ 1
      rw [f5, hcount]
      omega
    · show (Throttle.ackUpdate tag m s).resolvedCount
        = (Throttle.ackUpdate tag m s).closedCount
      rw [f6, f5, h7]
    · intro hcc
      exact absurd hcc (by simp [f5, hcount])
    · intro hc3
      exact absurd ⟨hc3.1, hc3.2.1, hc3.2.2⟩ hcond

/-- Every reachable state satisfies the invariant. -/
lemma reach_inv {s : Throttle} (h : Reach s) : ThrottleInv s := by
  induction h with
  | init n => exact inv_init n
  | step hr hst ih =>
    cases hst with
    | pub => exact inv_publish ih
    | ack t m hmem => exact inv_ack t m hmem ih
    | nack t m hmem => exact inv_ack t m hmem ih
    | flushEv max => exact inv_flush max ih
    | closeEv hc => exact inv_close ih hc
    | setThrottleEv n => exact inv_setThrottle n ih

/-- A dispatch during `publish` happens only under capacity, so `publish` keeps the open set within the throttle. -/
lemma publish_card_le (s : Throttle) (h : s.openTags.card ≤ s.throttle) :
    (s.publish).2.openTags.card ≤ (s.publish).2.throttle := by
  by_cases hc : s.closing = true
  · rw [publish_closing hc]
    exact h
  · have hc' : s.closing = false := by revert hc; cases s.closing <;> simp
    by_cases hcap : s.openTags.card < s.throttle
    · rw [publish_dispatch hc' hcap]
      show (insert s.current s.openTags).card ≤ s.throttle
      exact le_trans (Finset.card_insert_le _ _) hcap
    · rw [publish_enqueue hc' hcap]
      exact h

/-- The ack update can only shrink the open tag set. -/
lemma ackUpdate_card_le (tag : Nat) (m : Bool) (s : Throttle) :
    (Throttle.ackUpdate tag m s).openTags.card ≤ s.openTags.card := by
  cases m
  · show (s.openTags.erase tag).card ≤ s.openTags.card
    exact Finset.card_erase_le
  · show (s.openTags.filter (fun t => tag < t)).card ≤ s.openTags.card
    exact Finset.card_filter_le _ _

/-- `onAck` (removal plus drain) keeps the open set within the throttle. -/
lemma onAck_card_le (tag : Nat) (m : Bool) (s : Throttle) (h : s.openTags.card ≤ s.throttle) :
    (Throttle.onAck tag m s).openTags.card ≤ s.throttle := by
  have h1 : (Throttle.onAck tag m s).openTags
      = (Throttle.drainState (Throttle.ackUpdate tag m s)).openTags :=
    (checkClose_fields _).2.2.2.2.1
  have h2 : (Throttle.drainState (Throttle.ackUpdate tag m s)).openTags
      = (drainLoop (Throttle.ackUpdate tag m s).throttle (Throttle.ackUpdate tag m s).queue
          (Throttle.ackUpdate tag m s).openTags (Throttle.ackUpdate tag m s).sent).2.1 := rfl
  have hthr : (Throttle.ackUpdate tag m s).throttle = s.throttle := (ackUpdate_fields tag m s).2.1
  rw [h1, h2, hthr]
  exact drainLoop_card_le s.throttle _ _ _ (le_trans (ackUpdate_card_le tag m s) h)

/-- The AMQP void field (src/include/amqpcpp/voidfield.h): a field carrying no value. -/
structure VoidField where
deriving DecidableEq

/-- Inline body of `VoidField::size` (voidfield.h line 67): `return 0;`. -/
def VoidField.size (_ : VoidField) : Nat := 0

/-- Inline body of `VoidField::fill` (voidfield.h line 77): the body is empty, so the output buffer is unchanged. -/
def VoidField.fill (_ : VoidField) (buffer : List Nat) : List Nat := buffer

/-- Inline body of `VoidField::typeID` (voidfield.h line 85): `return 'V';`. -/
def VoidField.typeID (_ : VoidField) : Char := 'V'

/-- Inline body of `VoidField::isVoid` (voidfield.h line 105): `return true;`. -/
def VoidField.isVoid (_ : VoidField) : Bool := true

/-- Inline body of `VoidField::clone` (voidfield.h line 56): a fresh default-constructed `VoidField`. -/
def VoidField.clone (_ : VoidField) : VoidField := {}

/-- Inline body of `VoidField::VoidField(InBuffer&)` (voidfield.h line 42): the body is empty, so no bytes are consumed; returns the field and the remaining input. -/
def VoidField.ofInBuffer (buffer : List Nat) : VoidField × List Nat := ({}, buffer)

/--
C1: in every reachable state of the throttle, `waiting()` computes
`_current - _last - 1`, this value never underflows
(`_last + 1 ≤ _current`, so adding `_last + 1` back recovers `_current`
exactly, which is the non-negativity claim for the `uint64_t`
subtraction), and it equals the number of messages that were assigned
an id but are not yet known-confirmed, i.e. whose id lies above the
confirmed frontier `_last`.
-/
theorem throttle_waiting_conservation (s : Throttle) (h : Reach s) :
    s.waiting = s.current - s.last - 1 ∧
    s.last + 1 ≤ s.current ∧
    s.waiting + (s.last + 1) = s.current ∧
    s.waiting = (s.assigned.filter (fun i => decide (s.last < i))).length := by
  obtain ⟨h1, h2, h3, h4, h5, h6, h7, h8, h9⟩ := reach_inv h
  refine ⟨rfl, h2, ?_, ?_⟩
  · unfold Throttle.waiting
    omega
  · rw [h3, length_filter_range'_gt]
    unfold Throttle.waiting
    omega

/--
C1 witness: the conservation statement evaluated on the concrete
reachable state obtained from a throttle of 1 by two publishes followed
by `onAck(1, false)`.
-/
theorem throttle_waiting_conservation_witness :
    (Throttle.onAck 1 false (((Throttle.init 1).publish).2.publish).2).waiting
      = (Throttle.onAck 1 false (((Throttle.init 1).publish).2.publish).2).current
        - (Throttle.onAck 1 false (((Throttle.init 1).publish).2.publish).2).last - 1 ∧
    (Throttle.onAck 1 false (((Throttle.init 1).publish).2.publish).2).last + 1
      ≤ (Throttle.onAck 1 false (((Throttle.init 1).publish).2.publish).2).current ∧
    (Throttle.onAck 1 false (((Throttle.init 1).publish).2.publish).2).waiting
      + ((Throttle.onAck 1 false (((Throttle.init 1).publish).2.publish).2).last + 1)
      = (Throttle.onAck 1 false (((Throttle.init 1).publish).2.publish).2).current ∧
    (Throttle.onAck 1 false (((Throttle.init 1).publish).2.publish).2).waiting
      = ((Throttle.onAck 1 false (((Throttle.init 1).publish).2.publish).2).assigned.filter
          (fun i => decide ((Throttle.onAck 1 false (((Throttle.init 1).publish).2.publish).2).last < i))).length :=
  throttle_waiting_conservation (Throttle.onAck 1 false (((Throttle.init 1).publish).2.publish).2)
    (Reach.step (Reach.step (Reach.step (Reach.init 1) (Step.pub _)) (Step.pub _))
      (Step.ack _ 1 false (by decide)))

/--
C2 counterexample: in the reachable state after one publish on a
throttle of 1 (one message dispatched, still unacknowledged),
`waiting() + unacknowledged()` is 2, while the total number of messages
produced minus the number of messages whose tag is at most
`lastConfirmed` is 1, so the claimed sum accounting fails: the
dispatched-but-unconfirmed message is counted by both `waiting()` and
`unacknowledged()`.
-/
theorem throttle_accounting_cex :
    Reach (((Throttle.init 1).publish).2) ∧
    ¬((((Throttle.init 1).publish).2).waiting + (((Throttle.init 1).publish).2).unacknowledged
      = (((Throttle.init 1).publish).2).assigned.length
        - ((((Throttle.init 1).publish).2).assigned.filter
            (fun i => decide (i ≤ (((Throttle.init 1).publish).2).last))).length) :=
  ⟨Reach.step (Reach.init 1) (Step.pub _), by decide⟩

/--
C2 (amended): in every reachable state and for every interleaving of
publish/flush/onAck/onNack calls, `waiting()` alone equals the total
number of messages produced minus the number of messages whose tag is
at most `lastConfirmed`; `unacknowledged()` is not added on top, since
in-flight messages are already counted inside `waiting()`.  The total
produced is `_current - 1` and the messages confirmed by the frontier
number exactly `_last`, so no message is lost from this accounting.
-/
theorem throttle_accounting_amended (s : Throttle) (h : Reach s) :
    s.waiting = s.assigned.length
      - (s.assigned.filter (fun i => decide (i ≤ s.last))).length ∧
    s.assigned.length = s.current - 1 ∧
    (s.assigned.filter (fun i => decide (i ≤ s.last))).length = s.last := by
  obtain ⟨h1, h2, h3, h4, h5, h6, h7, h8, h9⟩ := reach_inv h
  have hlen : s.assigned.length = s.current - 1 := by
    rw [h3, List.length_range']
  have hfil : (s.assigned.filter (fun i => decide (i ≤ s.last))).length = s.last := by
    rw [h3, length_filter_range'_le]
    omega
  refine ⟨?_, hlen, hfil⟩
  rw [hlen, hfil]
  unfold Throttle.waiting
  omega

/--
C2 witness: the amended accounting evaluated on the concrete reachable
state obtained from a throttle of 1 by two publishes followed by
`onAck(1, false)`.
-/
theorem throttle_accounting_amended_witness :
    (Throttle.onAck 1 false (((Throttle.init 1).publish).2.publish).2).waiting
      = (Throttle.onAck 1 false (((Throttle.init 1).publish).2.publish).2).assigned.length
        - ((Throttle.onAck 1 false (((Throttle.init 1).publish).2.publish).2).assigned.filter
            (fun i => decide (i ≤ (Throttle.onAck 1 false (((Throttle.init 1).publish).2.publish).2).last))).length ∧
    (Throttle.onAck 1 false (((Throttle.init 1).publish).2.publish).2).assigned.length
      = (Throttle.onAck 1 false (((Throttle.init 1).publish).2.publish).2).current - 1 ∧
    ((Throttle.onAck 1 false (((Throttle.init 1).publish).2.publish).2).assigned.filter
        (fun i => decide (i ≤ (Throttle.onAck 1 false (((Throttle.init 1).publish).2.publish).2).last))).length
      = (Throttle.onAck 1 false (((Throttle.init 1).publish).2.publish).2).last :=
  throttle_accounting_amended (Throttle.onAck 1 false (((Throttle.init 1).publish).2.publish).2)
    (Reach.step (Reach.step (Reach.step (Reach.init 1) (Step.pub _)) (Step.pub _))
      (Step.ack _ 1 false (by decide)))

/--
C3: in every reachable state the log of ids handed out by `publish` is
exactly `[1, 2, …, _current - 1]` — the ids `1, 2, 3, …` with no gaps
and no repeats — and an accepted `publish` call (close not requested)
increments the counter exactly once and appends exactly the id
`_current`, whether the message is dispatched immediately or enqueued,
while a rejected one changes nothing.
-/
theorem throttle_sequential_ids (s : Throttle) (h : Reach s) :
    s.assigned = List.range' 1 (s.current - 1) ∧
    (s.closing = false →
      (s.publish).1 = true ∧
      (s.publish).2.current = s.current + 1 ∧
      (s.publish).2.assigned = s.assigned ++ [s.current]) ∧
    (s.closing = true → (s.publish).2 = s) := by
  obtain ⟨h1, h2, h3, h4, h5, h6, h7, h8, h9⟩ := reach_inv h
  refine ⟨h3, ?_, ?_⟩
  · intro hc
    by_cases hcap : s.openTags.card < s.throttle
    · rw [publish_dispatch hc hcap]
      exact ⟨rfl, rfl, rfl⟩
    · rw [publish_enqueue hc hcap]
      exact ⟨rfl, rfl, rfl⟩
  · intro hc
    rw [publish_closing hc]

/--
C3 witness: the sequential-id statement evaluated on the concrete
reachable state obtained from a throttle of 1 by two publishes followed
by `onAck(1, false)`.
-/
theorem throttle_sequential_ids_witness :
    (Throttle.onAck 1 false (((Throttle.init 1).publish).2.publish).2).assigned
      = List.range' 1 ((Throttle.onAck 1 false (((Throttle.init 1).publish).2.publish).2).current - 1) ∧
    ((Throttle.onAck 1 false (((Throttle.init 1).publish).2.publish).2).closing = false →
      ((Throttle.onAck 1 false (((Throttle.init 1).publish).2.publish).2).publish).1 = true ∧
      ((Throttle.onAck 1 false (((Throttle.init 1).publish).2.publish).2).publish).2.current
        = (Throttle.onAck 1 false (((Throttle.init 1).publish).2.publish).2).current + 1 ∧
      ((Throttle.onAck 1 false (((Throttle.init 1).publish).2.publish).2).publish).2.assigned
        = (Throttle.onAck 1 false (((Throttle.init 1).publish).2.publish).2).assigned
          ++ [(Throttle.onAck 1 false (((Throttle.init 1).publish).2.publish).2).current]) ∧
    ((Throttle.onAck 1 false (((Throttle.init 1).publish).2.publish).2).closing = true →
      ((Throttle.onAck 1 false (((Throttle.init 1).publish).2.publish).2).publish).2
        = Throttle.onAck 1 false (((Throttle.init 1).publish).2.publish).2) :=
  throttle_sequential_ids (Throttle.onAck 1 false (((Throttle.init 1).publish).2.publish).2)
    (Reach.step (Reach.step (Reach.step (Reach.init 1) (Step.pub _)) (Step.pub _))
      (Step.ack _ 1 false (by decide)))

/--
C4: `publish` returns `false` exactly when a close has already been
requested, in which case the state is left completely unchanged; in
every other case — dispatch or enqueue — it returns `true`.
-/
theorem throttle_publish_admission (s : Throttle) :
    ((s.publish).1 = false ↔ s.closing = true) ∧
    (s.closing = true → (s.publish).2 = s) ∧
    (s.closing = false → (s.publish).1 = true) := by
  by_cases hc : s.closing = true
  · rw [publish_closing hc]
    exact ⟨⟨fun _ => hc, fun _ => rfl⟩, fun _ => rfl,
      fun hc' => absurd hc (by simp [hc'])⟩
  · have hc' : s.closing = false := by revert hc; cases s.closing <;> simp
    have hp1 : (s.publish).1 = true := by
      by_cases hcap : s.openTags.card < s.throttle
      · rw [publish_dispatch hc' hcap]
      · rw [publish_enqueue hc' hcap]
    refine ⟨⟨fun hf => ?_, fun ht => absurd ht hc⟩, fun ht => absurd ht hc, fun _ => hp1⟩
    rw [hp1] at hf
    cases hf

/--
C4 witness: a rejected publish after `close()` on a fresh throttle, and
an accepted publish on a fresh throttle.
-/
theorem throttle_publish_admission_witness :
    ((Throttle.close (Throttle.init 1)).publish).1 = false ∧
    (((Throttle.init 1).publish).1 = true) :=
  ⟨(throttle_publish_admission (Throttle.close (Throttle.init 1))).1.mpr (by decide),
   (throttle_publish_admission (Throttle.init 1)).2.2 (by decide)⟩

/--
Concrete reachable state for the capacity counterexample: throttle 1,
three publishes (one dispatched, two queued), an unthrottled `flush(0)`
(pushing the open tag set to three entries), then `onAck(1, false)`.
-/
def sCex : Throttle :=
  Throttle.onAck 1 false
    (Throttle.flush 0 ((((Throttle.init 1).publish).2.publish).2.publish).2).2

/--
C5 counterexample: `sCex` is reachable and is the state immediately
after an `onAck`-triggered drain, yet its open tag set (two entries)
exceeds the throttle (one): after an unthrottled `flush`, acknowledging
one message leaves the open set above capacity, so the claimed bound
does not hold after every admission or drain decision.
-/
theorem throttle_capacity_cex :
    Reach sCex ∧ sCex.throttle < sCex.openTags.card :=
  ⟨Reach.step
      (Reach.step
        (Reach.step
          (Reach.step (Reach.step (Reach.init 1) (Step.pub _)) (Step.pub _))
          (Step.pub _))
        (Step.flushEv _ 0))
      (Step.ack _ 1 false (by decide)),
    by decide⟩

/--
C5 (amended): `publish`, `onAck` and `onNack` never dispatch past
capacity — each preserves `openTags.card ≤ throttle` whenever it held
before the call.  The bound can be exceeded only by the unthrottled
`flush` (or by lowering the throttle), and once exceeded it also
persists across the next admission or drain decisions, as the
counterexample shows; it is not an invariant of every reachable state.
-/
theorem throttle_capacity_amended (s : Throttle) (t : Nat) (m : Bool)
    (h : s.openTags.card ≤ s.throttle) :
    (s.publish).2.openTags.card ≤ (s.publish).2.throttle ∧
    (Throttle.onAck t m s).openTags.card ≤ s.throttle ∧
    (Throttle.onNack t m s).openTags.card ≤ s.throttle :=
  ⟨publish_card_le s h, onAck_card_le t m s h, onAck_card_le t m s h⟩

/--
C5 witness: capacity preservation evaluated on the state after one
publish on a throttle of 1 (one open tag, exactly at capacity).
-/
theorem throttle_capacity_amended_witness :
    ((Throttle.init 1).publish).2.openTags.card ≤ ((Throttle.init 1).publish).2.throttle ∧
    ((((Throttle.init 1).publish).2.publish).2.openTags.card
        ≤ (((Throttle.init 1).publish).2.publish).2.throttle ∧
      (Throttle.onAck 1 false ((Throttle.init 1).publish).2).openTags.card
        ≤ ((Throttle.init 1).publish).2.throttle ∧
      (Throttle.onNack 1 false ((Throttle.init 1).publish).2).openTags.card
        ≤ ((Throttle.init 1).publish).2.throttle) :=
  ⟨by decide, throttle_capacity_amended ((Throttle.init 1).publish).2 1 false (by decide)⟩

/--
C6: the acknowledgment-update step of `onAck(T, multiple = true)`
removes exactly the open tags `t ≤ T` (a tag survives it iff it was
open and exceeds `T`) and `onAck` sets `lastConfirmed` to
`max(lastConfirmed, T)`; with `multiple = false` it removes exactly the
tag `T` itself, and `lastConfirmed` moves to `T` only on a contiguous
advance `T = lastConfirmed + 1`, staying put otherwise.  (The
subsequent queue drain of `onAck` only adds freshly dispatched ids and
never touches `lastConfirmed`.)
-/
theorem throttle_ack_update_effect (s : Throttle) (tag : Nat) :
    (∀ t, t ∈ (Throttle.ackUpdate tag true s).openTags ↔ (t ∈ s.openTags ∧ tag < t)) ∧
    (Throttle.onAck tag true s).last = max s.last tag ∧
    (∀ t, t ∈ (Throttle.ackUpdate tag false s).openTags ↔ (t ∈ s.openTags ∧ t ≠ tag)) ∧
    (Throttle.onAck tag false s).last = (if tag = s.last + 1 then tag else s.last) := by
  refine ⟨?_, ?_, ?_, ?_⟩
  · intro t
    show t ∈ s.openTags.filter (fun t => tag < t) ↔ _
    rw [Finset.mem_filter]
  · have e1 : (Throttle.onAck tag true s).last
        = (Throttle.drainState (Throttle.ackUpdate tag true s)).last := (checkClose_fields _).2.1
    have e2 : (Throttle.drainState (Throttle.ackUpdate tag true s)).last
        = (Throttle.ackUpdate tag true s).last := (drainState_fields _).2.1
    rw [e1, e2]
    rfl
  · intro t
    show t ∈ s.openTags.erase tag ↔ _
    rw [Finset.mem_erase]
    tauto
  · have e1 : (Throttle.onAck tag false s).last
        = (Throttle.drainState (Throttle.ackUpdate tag false s)).last := (checkClose_fields _).2.1
    have e2 : (Throttle.drainState (Throttle.ackUpdate tag false s)).last
        = (Throttle.ackUpdate tag false s).last := (drainState_fields _).2.1
    rw [e1, e2]
    rfl

/--
C7: `onNack` performs exactly the same state transition as `onAck` with
the same parameters (it forwards to it verbatim): the nacked tag is
removed from the open tag set, the pending queue never gains an entry
(it is always a suffix of what it was, so the message is not retried or
redelivered), and when no queued message is waiting to be drained,
nothing is dispatched and `unacknowledged()` drops by one.
-/
theorem throttle_nack_equals_ack (s : Throttle) (tag : Nat) (m : Bool) :
    Throttle.onNack tag m s = Throttle.onAck tag m s ∧
    tag ∉ (Throttle.ackUpdate tag false s).openTags ∧
    (∃ k, (Throttle.onNack tag m s).queue = s.queue.drop k) ∧
    (s.queue = [] →
      (Throttle.onNack tag false s).queue = [] ∧
      (Throttle.onNack tag false s).sent = s.sent ∧
      (tag ∈ s.openTags →
        (Throttle.onNack tag false s).unacknowledged = s.unacknowledged - 1)) := by
  refine ⟨rfl, ?_, ?_, ?_⟩
  · show tag ∉ s.openTags.erase tag
    simp [Finset.mem_erase]
  · obtain ⟨k, hk⟩ := drainLoop_spec (Throttle.ackUpdate tag m s).throttle
      (Throttle.ackUpdate tag m s).queue (Throttle.ackUpdate tag m s).openTags
      (Throttle.ackUpdate tag m s).sent
    refine ⟨k, ?_⟩
    have e1 : (Throttle.onNack tag m s).queue
        = (Throttle.drainState (Throttle.ackUpdate tag m s)).queue :=
      (checkClose_fields _).2.2.2.1
    have e2 : (Throttle.drainState (Throttle.ackUpdate tag m s)).queue
        = (drainLoop (Throttle.ackUpdate tag m s).throttle (Throttle.ackUpdate tag m s).queue
            (Throttle.ackUpdate tag m s).openTags (Throttle.ackUpdate tag m s).sent).1 := rfl
    rw [e1, e2, hk]
    show ((Throttle.ackUpdate tag m s).queue).drop k = s.queue.drop k
    rw [(ackUpdate_fields tag m s).2.2.1]
  · intro hq
    have hqa : (Throttle.ackUpdate tag false s).queue = [] := hq
    have e1 : (Throttle.onNack tag false s).queue = [] := by
      show (Throttle.checkClose (Throttle.drainState (Throttle.ackUpdate tag false s))).queue = []
      rw [(checkClose_fields _).2.2.2.1]
      show (drainLoop (Throttle.ackUpdate tag false s).throttle
        (Throttle.ackUpdate tag false s).queue (Throttle.ackUpdate tag false s).openTags
        (Throttle.ackUpdate tag false s).sent).1 = []
      rw [hqa]
      rfl
    have e2 : (Throttle.onNack tag false s).sent = s.sent := by
      show (Throttle.checkClose (Throttle.drainState (Throttle.ackUpdate tag false s))).sent = s.sent
      rw [(checkClose_fields _).2.2.2.2.2.2.2]
      show (drainLoop (Throttle.ackUpdate tag false s).throttle
        (Throttle.ackUpdate tag false s).queue (Throttle.ackUpdate tag false s).openTags
        (Throttle.ackUpdate tag false s).sent).2.2 = s.sent
      rw [hqa]
      rfl
    refine ⟨e1, e2, ?_⟩
    intro hmem
    show (Throttle.checkClose (Throttle.drainState (Throttle.ackUpdate tag false s))).openTags.card
      = s.openTags.card - 1
    rw [(checkClose_fields _).2.2.2.2.1]
    show (drainLoop (Throttle.ackUpdate tag false s).throttle
      (Throttle.ackUpdate tag false s).queue (Throttle.ackUpdate tag false s).openTags
      (Throttle.ackUpdate tag false s).sent).2.1.card = s.openTags.card - 1
    rw [hqa]
    show (s.openTags.erase tag).card = s.openTags.card - 1
    exact Finset.card_erase_of_mem hmem

/--
C7 witness: a single nack on the state after one publish on a throttle
of 1 (tag 1 in flight, empty queue) coincides with the ack transition
and frees one unit of capacity.
-/
theorem throttle_nack_equals_ack_witness :
    Throttle.onNack 1 false ((Throttle.init 1).publish).2
      = Throttle.onAck 1 false ((Throttle.init 1).publish).2 ∧
    (Throttle.onNack 1 false ((Throttle.init 1).publish).2).queue = [] ∧
    (Throttle.onNack 1 false ((Throttle.init 1).publish).2).unacknowledged
      = ((Throttle.init 1).publish).2.unacknowledged - 1 :=
  ⟨(throttle_nack_equals_ack ((Throttle.init 1).publish).2 1 false).1,
    ((throttle_nack_equals_ack ((Throttle.init 1).publish).2 1 false).2.2.2 rfl).1,
    (((throttle_nack_equals_ack ((Throttle.init 1).publish).2 1 false).2.2.2 rfl).2.2 (by decide))⟩

/--
C8: `flush(0)` drains the entire pending queue without consulting the
throttle and returns its full length; `flush(max)` with `max > 0`
dispatches exactly `min max queue.length` messages; in general the
return value counts exactly the dispatched messages (the head `take` of
the queue moves to the dispatch log, the `drop` stays queued) and every
dispatched id enters the open tag set, still awaiting acknowledgment.
-/
theorem throttle_flush_drains (s : Throttle) (max : Nat) :
    (Throttle.flush 0 s).2.queue = [] ∧
    (Throttle.flush 0 s).1 = s.queue.length ∧
    (0 < max → (Throttle.flush max s).1 = min max s.queue.length) ∧
    (Throttle.flush max s).2.queue = s.queue.drop ((Throttle.flush max s).1) ∧
    (Throttle.flush max s).2.sent = s.sent ++ s.queue.take ((Throttle.flush max s).1) ∧
    (∀ q ∈ s.queue.take ((Throttle.flush max s).1), q ∈ (Throttle.flush max s).2.openTags) := by
  have h1 : (Throttle.flush max s).1 = flushCount max 0 s.queue.length := by
    show (flushAux max s.queue 0 s.openTags s.sent).1 = _
    rw [flushAux_spec]
    show 0 + flushCount max 0 s.queue.length = _
    omega
  have h2 : (Throttle.flush max s).2.queue = s.queue.drop (flushCount max 0 s.queue.length) := by
    show (flushAux max s.queue 0 s.openTags s.sent).2.1 = _
    rw [flushAux_spec]
  have h3 : (Throttle.flush max s).2.sent
      = s.sent ++ s.queue.take (flushCount max 0 s.queue.length) := by
    show (flushAux max s.queue 0 s.openTags s.sent).2.2.2 = _
    rw [flushAux_spec]
  have h4 : (Throttle.flush max s).2.openTags
      = s.openTags ∪ (s.queue.take (flushCount max 0 s.queue.length)).toFinset := by
    show (flushAux max s.queue 0 s.openTags s.sent).2.2.1 = _
    rw [flushAux_spec]
  have h10 : (Throttle.flush 0 s).1 = flushCount 0 0 s.queue.length := by
    show (flushAux 0 s.queue 0 s.openTags s.sent).1 = _
    rw [flushAux_spec]
    show 0 + flushCount 0 0 s.queue.length = _
    omega
  have h20 : (Throttle.flush 0 s).2.queue = s.queue.drop (flushCount 0 0 s.queue.length) := by
    show (flushAux 0 s.queue 0 s.openTags s.sent).2.1 = _
    rw [flushAux_spec]
  have hfc0 : flushCount 0 0 s.queue.length = s.queue.length := by
    simp [flushCount]
  refine ⟨?_, ?_, ?_, ?_, ?_, ?_⟩
  · rw [h20, hfc0]
    simp
  · rw [h10, hfc0]
  · intro hm
    rw [h1]
    have hm' : ¬ max = 0 := by omega
    simp [flushCount, hm']
  · rw [h2, h1]
  · rw [h3, h1]
  · intro q hq
    rw [h1] at hq
    rw [h4]
    exact Finset.mem_union_right _ (List.mem_toFinset.mpr hq)

/--
C8 witness: on the state with two queued messages (throttle 0, two
publishes), `flush(0)` empties the queue and `flush(1)` dispatches
exactly one message.
-/
theorem throttle_flush_drains_witness :
    (Throttle.flush 0 (((Throttle.init 0).publish).2.publish).2).2.queue = [] ∧
    (Throttle.flush 1 (((Throttle.init 0).publish).2.publish).2).1
      = min 1 (((Throttle.init 0).publish).2.publish).2.queue.length :=
  ⟨(throttle_flush_drains (((Throttle.init 0).publish).2.publish).2 1).1,
    ((throttle_flush_drains (((Throttle.init 0).publish).2.publish).2 1).2.2.1) (by decide)⟩

/-- The queue after `onAck` is always a suffix of the queue before. -/
lemma onAck_queue_suffix (tag : Nat) (m : Bool) (s : Throttle) :
    ∃ k, (Throttle.onAck tag m s).queue = s.queue.drop k := by
  obtain ⟨k, hk⟩ := drainLoop_spec (Throttle.ackUpdate tag m s).throttle
    (Throttle.ackUpdate tag m s).queue (Throttle.ackUpdate tag m s).openTags
    (Throttle.ackUpdate tag m s).sent
  refine ⟨k, ?_⟩
  have e1 : (Throttle.onAck tag m s).queue
      = (Throttle.drainState (Throttle.ackUpdate tag m s)).queue :=
    (checkClose_fields _).2.2.2.1
  have e2 : (Throttle.drainState (Throttle.ackUpdate tag m s)).queue
      = (drainLoop (Throttle.ackUpdate tag m s).throttle (Throttle.ackUpdate tag m s).queue
          (Throttle.ackUpdate tag m s).openTags (Throttle.ackUpdate tag m s).sent).1 := rfl
  rw [e1, e2, hk]
  show ((Throttle.ackUpdate tag m s).queue).drop k = s.queue.drop k
  rw [(ackUpdate_fields tag m s).2.2.1]

/-- `onAck` leaves the close-request flag alone. -/
lemma onAck_closing (tag : Nat) (m : Bool) (s : Throttle) :
    (Throttle.onAck tag m s).closing = s.closing := by
  show (Throttle.checkClose (Throttle.drainState (Throttle.ackUpdate tag m s))).closing = s.closing
  rw [(checkClose_fields _).2.2.2.2.2.1, (drainState_fields _).2.2.2.1,
    (ackUpdate_fields tag m s).2.2.2.1]

/-- The queue after `flush` is always a suffix of the queue before. -/
lemma flush_queue_suffix (max : Nat) (s : Throttle) :
    ∃ k, (Throttle.flush max s).2.queue = s.queue.drop k := by
  refine ⟨flushCount max 0 s.queue.length, ?_⟩
  show (flushAux max s.queue 0 s.openTags s.sent).2.1 = _
  rw [flushAux_spec]

/--
C9: in every reachable state the underlying channel has been closed at
most once and the close deferred resolved exactly as often; the channel
has been closed exactly when a requested close has seen both the
pending queue and the open tag set empty; a `close()` issued in that
empty situation closes the channel and resolves the deferred
synchronously; once a close is requested the pending queue only ever
shrinks and the request is never withdrawn; and once the channel is
closed every further valid step leaves it closed, with the deferred
still resolved exactly once — the closed state is terminal.
-/
theorem throttle_close_protocol (s : Throttle) (h : Reach s) :
    s.closedCount ≤ 1 ∧
    s.resolvedCount = s.closedCount ∧
    ((s.closing = true ∧ s.queue = [] ∧ s.openTags = ∅) ↔ s.closedCount = 1) ∧
    (s.closing = false → s.queue = [] → s.openTags = ∅ →
      (Throttle.close s).closedCount = 1 ∧ (Throttle.close s).resolvedCount = 1) ∧
    (s.closing = true → ∀ s', Step s s' → s'.closing = true ∧ s'.queue.length ≤ s.queue.length) ∧
    (s.closedCount = 1 → ∀ s', Step s s' → s'.closedCount = 1 ∧ s'.resolvedCount = 1) := by
  obtain ⟨h1, h2, h3, h4, h5, h6, h7, h8, h9⟩ := reach_inv h
  refine ⟨h6, h7, ⟨h9, h8⟩, ?_, ?_, ?_⟩
  · intro hc hqe hoe
    have hcount : s.closedCount = 0 := by
      by_cases hcc : s.closedCount = 1
      · exact absurd (h8 hcc).1 (by simp [hc])
      · omega
    unfold Throttle.close Throttle.checkClose
    split
    · constructor
      · show s.closedCount + 1 = 1
        omega
      · show s.resolvedCount + 1 = 1
        omega
    · rename_i hcond
      exact absurd ⟨rfl, hqe, hoe⟩ hcond
  · intro hcl s' hst
    cases hst with
    | pub =>
      rw [publish_closing hcl]
      exact ⟨hcl, le_refl _⟩
    | ack t m hmem =>
      obtain ⟨k, hk⟩ := onAck_queue_suffix t m s
      refine ⟨?_, ?_⟩
      · rw [onAck_closing]
        exact hcl
      · rw [hk, List.length_drop]
        omega
    | nack t m hmem =>
      obtain ⟨k, hk⟩ := onAck_queue_suffix t m s
      refine ⟨?_, ?_⟩
      · show (Throttle.onAck t m s).closing = true
        rw [onAck_closing]
        exact hcl
      · show (Throttle.onAck t m s).queue.length ≤ s.queue.length
        rw [hk, List.length_drop]
        omega
    | flushEv max =>
      obtain ⟨k, hk⟩ := flush_queue_suffix max s
      refine ⟨hcl, ?_⟩
      rw [hk, List.length_drop]
      omega
    | closeEv hcf =>
      exact absurd hcl (by simp [hcf])
    | setThrottleEv n =>
      exact ⟨hcl, le_refl _⟩
  · intro hcc s' hst
    obtain ⟨hcl, hqe, hoe⟩ := h8 hcc
    have hres : s.resolvedCount = 1 := by omega
    cases hst with
    | pub =>
      rw [publish_closing hcl]
      exact ⟨hcc, hres⟩
    | ack t m hmem =>
      rw [hoe] at hmem
      exact absurd hmem (Finset.not_mem_empty t)
    | nack t m hmem =>
      rw [hoe] at hmem
      exact absurd hmem (Finset.not_mem_empty t)
    | flushEv max =>
      exact ⟨hcc, hres⟩
    | closeEv hcf =>
      exact absurd hcl (by simp [hcf])
    | setThrottleEv n =>
      exact ⟨hcc, hres⟩

/--
C9 witness: on a fresh throttle (reachable, nothing pending, nothing
open, close not yet requested), `close()` closes the channel and
resolves the deferred synchronously, exactly once.
-/
theorem throttle_close_protocol_witness :
    (Throttle.init 1).closedCount ≤ 1 ∧
    (Throttle.close (Throttle.init 1)).closedCount = 1 ∧
    (Throttle.close (Throttle.init 1)).resolvedCount = 1 :=
  ⟨(throttle_close_protocol (Throttle.init 1) (Reach.init 1)).1,
    ((throttle_close_protocol (Throttle.init 1) (Reach.init 1)).2.2.2.1 rfl rfl rfl).1,
    ((throttle_close_protocol (Throttle.init 1) (Reach.init 1)).2.2.2.1 rfl rfl rfl).2⟩

/--
C10: the void field codec is a zero-width identity: `size()` is 0,
`fill` leaves any output buffer unchanged, constructing from an input
buffer consumes no bytes, `typeID()` is `'V'`, `isVoid()` holds, a
clone agrees with the original on every observer (and, the type having
no state, is equal to it), and encoding followed by decoding
round-trips to a field equal to the original with the buffer intact.
-/
theorem voidfield_roundtrip (f : VoidField) (buffer : List Nat) :
    f.size = 0 ∧
    f.fill buffer = buffer ∧
    (VoidField.ofInBuffer buffer).2 = buffer ∧
    f.typeID = 'V' ∧
    f.isVoid = true ∧
    f.clone.size = f.size ∧
    f.clone.typeID = f.typeID ∧
    f.clone.isVoid = f.isVoid ∧
    f.clone = f ∧
    (VoidField.ofInBuffer (f.fill buffer)).1 = f ∧
    (VoidField.ofInBuffer (f.fill buffer)).2 = buffer := by
  cases f
  exact ⟨rfl, rfl, rfl, rfl, rfl, rfl, rfl, rfl, rfl, rfl, rfl⟩
